import Mathlib

/-!
Verification of the Auraze chat client reconciliation layer.

The definitions below are a shallow embedding of the code in
src/src/App.tsx (the React application: event listeners, handlers and
component state) and src/unnamed/part_000 (the Gun service module:
auth, getPrivateRoomId, send operations).  JavaScript records are
embedded as structures, possibly-absent values as Option, the store
event streams as explicit event arguments, and the mutable component
state as explicit state passing.
-/

/-- A reconciled chat message as kept in component state: the wire
payload fields (msg, user, pub, time) plus the store key id, exactly
the fields produced by the spread in the listeners of App.tsx. -/
structure Message where
  id : String
  msg : String
  user : String
  pub : String
  time : Int
deriving DecidableEq

/-- The raw value of an incoming chat event.  The msg field may be
missing (malformed event); a wholly absent value (tombstone) is
represented by Option MsgValue at the use sites. -/
structure MsgValue where
  msg : Option String
  user : String
  pub : String
  time : Int
deriving DecidableEq

/-- A friend roster entry, App.tsx interface Friend.  The field named
alias in the source is called alias1 here because alias is a reserved
word in Lean. -/
structure Friend where
  pub : String
  alias1 : String
  status : String
  online : Option Bool
deriving DecidableEq

/-- The raw value of an incoming friend-stream event: the record
written by addFriend, {pub, alias, status}, possibly carrying an
online flag. -/
structure FriendValue where
  pub : String
  alias1 : String
  status : String
  online : Option Bool
deriving DecidableEq

/-- Lexicographic comparison of char lists: the JavaScript abstract
relational comparison on strings, as used by the default comparator of
Array.prototype.sort in getPrivateRoomId. -/
def charListLt : List Char → List Char → Bool
  | [], [] => false
  | [], _ :: _ => true
  | _ :: _, [] => false
  | a :: as, b :: bs =>
      if a < b then true
      else if b < a then false
      else charListLt as bs

/-- String comparison used by the JavaScript default sort. -/
def strLt (a b : String) : Bool := charListLt a.data b.data

/-- part_000 lines 97-99: getPrivateRoomId(pub1, pub2) returns
[pub1, pub2].sort().join(UNDERSCORE).  A two-element JavaScript sort
swaps the pair exactly when the second element compares strictly below
the first. -/
def getPrivateRoomId (pub1 pub2 : String) : String :=
  String.intercalate "_" (if strLt pub2 pub1 then [pub2, pub1] else [pub1, pub2])

theorem charListLt_asymm (as : List Char) :
    ∀ bs, charListLt as bs = true → charListLt bs as = true → False := by
  induction as with
  | nil =>
    intro bs h1 h2
    cases bs with
    | nil => simp [charListLt] at h1
    | cons b t => simp [charListLt] at h2
  | cons a as ih =>
    intro bs h1 h2
    cases bs with
    | nil => simp [charListLt] at h1
    | cons b t =>
      simp only [charListLt] at h1 h2
      by_cases hab : a < b
      · have hba : ¬ b < a := lt_asymm hab
        simp [hab, hba] at h2
      · by_cases hba : b < a
        · simp [hab, hba] at h1
        · simp [hab, hba] at h1 h2
          exact ih t h1 h2

theorem charListLt_conn (as : List Char) :
    ∀ bs, charListLt as bs = false → charListLt bs as = false → as = bs := by
  induction as with
  | nil =>
    intro bs h1 h2
    cases bs with
    | nil => rfl
    | cons b t => simp [charListLt] at h1
  | cons a as ih =>
    intro bs h1 h2
    cases bs with
    | nil => simp [charListLt] at h2
    | cons b t =>
      simp only [charListLt] at h1 h2
      by_cases hab : a < b
      · simp [hab] at h1
      · by_cases hba : b < a
        · simp [hab, hba] at h2
        · simp [hab, hba] at h1 h2
          have hEq : a = b := le_antisymm (not_lt.mp hba) (not_lt.mp hab)
          rw [hEq, ih t h1 h2]

/-- The two-element sort plus join of getPrivateRoomId, written as a
plain append. -/
theorem getPrivateRoomId_eq (a b : String) :
    getPrivateRoomId a b
      = (if strLt b a then b else a) ++ "_" ++ (if strLt b a then a else b) := by
  by_cases h : strLt b a = true <;> simp [getPrivateRoomId, h] <;> rfl

/-- C4: for every pair of identity strings a and b, getPrivateRoomId
a b equals getPrivateRoomId b a.  The function is a pure function of
its two arguments by construction of the embedding (it reads no state
and performs no effect), so symmetry is the whole content. -/
theorem getPrivateRoomId_symm (a b : String) :
    getPrivateRoomId a b = getPrivateRoomId b a := by
  unfold getPrivateRoomId
  by_cases h1 : strLt b a = true
  · by_cases h2 : strLt a b = true
    · exact (charListLt_asymm a.data b.data h2 h1).elim
    · simp [h1, h2]
  · by_cases h2 : strLt a b = true
    · simp [h1, h2]
    · have hab : a = b :=
        String.ext (charListLt_conn a.data b.data
          (Bool.eq_false_iff.mpr h2) (Bool.eq_false_iff.mpr h1))
      simp [h1, h2, hab]

/-- Splitting a char list at a separator occurring in neither prefix
is unambiguous. -/
theorem append_sep_inj (c : Char) (l1 : List Char) :
    ∀ (l2 r1 r2 : List Char), c ∉ l1 → c ∉ l2 →
      l1 ++ c :: r1 = l2 ++ c :: r2 → l1 = l2 ∧ r1 = r2 := by
  induction l1 with
  | nil =>
    intro l2 r1 r2 h1 h2 heq
    cases l2 with
    | nil =>
      simp only [List.nil_append, List.cons.injEq] at heq
      exact ⟨rfl, heq.2⟩
    | cons b t =>
      simp only [List.nil_append, List.cons_append, List.cons.injEq] at heq
      exact absurd (heq.1 ▸ List.mem_cons_self b t) h2
  | cons a t ih =>
    intro l2 r1 r2 h1 h2 heq
    cases l2 with
    | nil =>
      simp only [List.nil_append, List.cons_append, List.cons.injEq] at heq
      exact absurd (heq.1.symm ▸ List.mem_cons_self a t) h1
    | cons b u =>
      simp only [List.cons_append, List.cons.injEq] at heq
      obtain ⟨hab, htail⟩ := heq
      have hrec := ih u r1 r2
        (fun hm => h1 (List.mem_cons_of_mem _ hm))
        (fun hm => h2 (List.mem_cons_of_mem _ hm)) htail
      exact ⟨by rw [hab, hrec.1], hrec.2⟩

theorem data_append_sep (x y : String) :
    (x ++ "_" ++ y).data = x.data ++ '_' :: y.data := by
  rw [String.data_append, String.data_append]
  simp

/-- Counterexample to C5 as stated: the four identities x_y, z, x,
y_z are non-empty and pairwise distinct, the unordered pairs differ,
yet both pairs resolve to the same room id, because the separator can
occur inside an identity. -/
theorem c5_counterexample :
    ("x_y" : String) ≠ "" ∧ ("z" : String) ≠ "" ∧
    ("x" : String) ≠ "" ∧ ("y_z" : String) ≠ "" ∧
    ("x_y" : String) ≠ "z" ∧ ("x_y" : String) ≠ "x" ∧
    ("x_y" : String) ≠ "y_z" ∧ ("z" : String) ≠ "x" ∧
    ("z" : String) ≠ "y_z" ∧ ("x" : String) ≠ "y_z" ∧
    getPrivateRoomId "x_y" "z" = getPrivateRoomId "x" "y_z" := by
  decide

/-- C5 amended: the resolver is collision-free for distinct unordered
pairs of non-empty, pairwise-distinct identities provided the
identities do not contain the separator character (an underscore);
gun SEA public keys never do. -/
theorem getPrivateRoomId_collision_free
    (a b c d : String)
    (ha : a ≠ "") (hb : b ≠ "") (hc : c ≠ "") (hd : d ≠ "")
    (na : '_' ∉ a.data) (nb : '_' ∉ b.data) (nc : '_' ∉ c.data) (nd : '_' ∉ d.data)
    (hab : a ≠ b) (hac : a ≠ c) (had : a ≠ d)
    (hbc : b ≠ c) (hbd : b ≠ d) (hcd : c ≠ d) :
    getPrivateRoomId a b ≠ getPrivateRoomId c d := by
  intro heq
  rw [getPrivateRoomId_eq, getPrivateRoomId_eq] at heq
  have hdata := congrArg String.data heq
  by_cases h1 : strLt b a = true <;> by_cases h2 : strLt d c = true <;>
    simp only [h1, h2, if_true, if_false, Bool.false_eq_true, if_neg] at hdata <;>
    rw [data_append_sep, data_append_sep] at hdata
  · exact hbd (String.ext (append_sep_inj '_' _ _ _ _ nb nd hdata).1)
  · exact hbc (String.ext (append_sep_inj '_' _ _ _ _ nb nc hdata).1)
  · exact had (String.ext (append_sep_inj '_' _ _ _ _ na nd hdata).1)
  · exact hac (String.ext (append_sep_inj '_' _ _ _ _ na nc hdata).1)

/-- Witness for the amended C5 at concrete separator-free identities. -/
theorem getPrivateRoomId_collision_free_witness :
    getPrivateRoomId "pA" "pB" ≠ getPrivateRoomId "pC" "pD" :=
  getPrivateRoomId_collision_free "pA" "pB" "pC" "pD"
    (by decide) (by decide) (by decide) (by decide)
    (by decide) (by decide) (by decide) (by decide)
    (by decide) (by decide) (by decide)
    (by decide) (by decide) (by decide)

/-- The sort step of both chat listeners in App.tsx:
.sort((a, b) => b.time - a.time), a stable sort putting larger
timestamps first. -/
def sortByTimeDesc (l : List Message) : List Message :=
  l.mergeSort (fun a b => decide (b.time ≤ a.time))

/-- App.tsx lines 480-487, the global chat listener body applied to
the previous globalMessages state: if (data && data.msg) then drop
duplicates by id, otherwise prepend the new message and re-sort by
time descending.  An absent data value is a tombstone; a missing or
empty msg field fails the JavaScript truthiness test. -/
def onGlobalChatEvent (prev : List Message) (data : Option MsgValue) (id : String) :
    List Message :=
  match data with
  | some v =>
    match v.msg with
    | some m =>
      if m = "" then prev
      else if prev.any (fun x => x.id == id) then prev
      else sortByTimeDesc
        ({ id := id, msg := m, user := v.user, pub := v.pub, time := v.time } :: prev)
    | none => prev
  | none => prev

/-- App.tsx lines 500-511, the private room listener body applied to
the previous privateMessages state.  The privateMessages record is
embedded as a total map from room id to message list, absent keys
mapping to [] exactly as roomMsgs = prev[roomId] or [] does. -/
def onPrivateChatEvent (prev : String → List Message) (roomId : String)
    (data : Option MsgValue) (id : String) : String → List Message :=
  match data with
  | some v =>
    match v.msg with
    | some m =>
      if m = "" then prev
      else
        let roomMsgs := prev roomId
        if roomMsgs.any (fun x => x.id == id) then prev
        else fun r =>
          if r = roomId then
            sortByTimeDesc
              ({ id := id, msg := m, user := v.user, pub := v.pub, time := v.time } :: roomMsgs)
          else prev r
    | none => prev
  | none => prev

/-- A message list sorted by time descending, the order invariant of
the spec. -/
def SortedByTimeDesc (l : List Message) : Prop :=
  l.Pairwise (fun a b => b.time ≤ a.time)

theorem sortByTimeDesc_sorted (l : List Message) :
    SortedByTimeDesc (sortByTimeDesc l) := by
  have h := @List.sorted_mergeSort Message
    (fun a b : Message => decide (b.time ≤ a.time))
    (fun a b c h1 h2 => by
      simp only [decide_eq_true_eq] at h1 h2 ⊢
      exact le_trans h2 h1)
    (fun a b => by
      rcases le_total b.time a.time with h | h <;> simp [h])
    l
  exact h.imp (fun hx => of_decide_eq_true hx)

theorem mem_sortByTimeDesc {x : Message} {l : List Message} :
    x ∈ sortByTimeDesc l ↔ x ∈ l := List.mem_mergeSort

/-- After inserting the message keyed id, a lookup by id succeeds. -/
theorem any_id_sortByTimeDesc (m u p : String) (t : Int) (id : String)
    (prev : List Message) :
    (sortByTimeDesc
      ({ id := id, msg := m, user := u, pub := p, time := t } :: prev)).any
        (fun x => x.id == id) = true := by
  rw [List.any_eq_true]
  exact ⟨_, mem_sortByTimeDesc.mpr (List.mem_cons_self _ _), by simp⟩

theorem onGlobalChatEvent_idem (prev : List Message) (data : Option MsgValue)
    (id : String) :
    onGlobalChatEvent (onGlobalChatEvent prev data id) data id
      = onGlobalChatEvent prev data id := by
  cases data with
  | none => rfl
  | some v =>
    obtain ⟨mm, u, p, t⟩ := v
    cases mm with
    | none => rfl
    | some m =>
      by_cases hm : m = ""
      · simp [onGlobalChatEvent, hm]
      · by_cases hdup : prev.any (fun x => x.id == id) = true
        · simp [onGlobalChatEvent, hm, hdup]
        · simp [onGlobalChatEvent, hm, hdup, any_id_sortByTimeDesc]

/-- Unfolding the private listener on a duplicate id: no state change. -/
theorem onPrivateChatEvent_dup (prev : String → List Message) (roomId : String)
    (m u p : String) (t : Int) (id : String)
    (hdup : (prev roomId).any (fun x => x.id == id) = true) :
    onPrivateChatEvent prev roomId (some ⟨some m, u, p, t⟩) id = prev := by
  by_cases hm : m = "" <;> simp [onPrivateChatEvent, hm, hdup]

/-- Unfolding the private listener on a fresh id: the room list is
replaced by the re-sorted extension, other rooms untouched. -/
theorem onPrivateChatEvent_insert (prev : String → List Message) (roomId : String)
    (m u p : String) (t : Int) (id : String) (hm : m ≠ "")
    (hdup : (prev roomId).any (fun x => x.id == id) = false) :
    onPrivateChatEvent prev roomId (some ⟨some m, u, p, t⟩) id
      = fun r =>
          if r = roomId then
            sortByTimeDesc
              ({ id := id, msg := m, user := u, pub := p, time := t } :: prev roomId)
          else prev r := by
  simp [onPrivateChatEvent, hm, hdup]

theorem onPrivateChatEvent_idem (prev : String → List Message) (roomId : String)
    (data : Option MsgValue) (id : String) :
    onPrivateChatEvent (onPrivateChatEvent prev roomId data id) roomId data id
      = onPrivateChatEvent prev roomId data id := by
  cases data with
  | none => rfl
  | some v =>
    obtain ⟨mm, u, p, t⟩ := v
    cases mm with
    | none => rfl
    | some m =>
      by_cases hm : m = ""
      · simp [onPrivateChatEvent, hm]
      · by_cases hdup : (prev roomId).any (fun x => x.id == id) = true
        · simp [onPrivateChatEvent, hm, hdup]
        · have hdupf : (prev roomId).any (fun x => x.id == id) = false :=
            Bool.eq_false_iff.mpr hdup
          rw [onPrivateChatEvent_insert prev roomId m u p t id hm hdupf]
          refine onPrivateChatEvent_dup _ roomId m u p t id ?_
          have h := any_id_sortByTimeDesc m u p t id (prev roomId)
          simpa using h

/-- C2: processing an event whose id is already present is a no-op:
applying the same event twice to either reconciler (the global chat
listener or a private room listener) yields exactly the state yielded
by applying it once. -/
theorem reconcilers_idempotent :
    (∀ (prev : List Message) (data : Option MsgValue) (id : String),
      onGlobalChatEvent (onGlobalChatEvent prev data id) data id
        = onGlobalChatEvent prev data id) ∧
    (∀ (prev : String → List Message) (roomId : String)
        (data : Option MsgValue) (id : String),
      onPrivateChatEvent (onPrivateChatEvent prev roomId data id) roomId data id
        = onPrivateChatEvent prev roomId data id) :=
  ⟨onGlobalChatEvent_idem, onPrivateChatEvent_idem⟩

theorem onGlobalChatEvent_sorted (prev : List Message) (data : Option MsgValue)
    (id : String) (h : SortedByTimeDesc prev) :
    SortedByTimeDesc (onGlobalChatEvent prev data id) := by
  cases data with
  | none => exact h
  | some v =>
    obtain ⟨mm, u, p, t⟩ := v
    cases mm with
    | none => exact h
    | some m =>
      by_cases hm : m = ""
      · simpa [onGlobalChatEvent, hm] using h
      · by_cases hdup : prev.any (fun x => x.id == id) = true
        · simpa [onGlobalChatEvent, hm, hdup] using h
        · simp only [onGlobalChatEvent, if_neg hm, hdup, Bool.false_eq_true, if_false]
          exact sortByTimeDesc_sorted _

theorem onPrivateChatEvent_sorted (prev : String → List Message) (roomId : String)
    (data : Option MsgValue) (id : String)
    (h : ∀ r, SortedByTimeDesc (prev r)) :
    ∀ r, SortedByTimeDesc (onPrivateChatEvent prev roomId data id r) := by
  cases data with
  | none => exact h
  | some v =>
    obtain ⟨mm, u, p, t⟩ := v
    cases mm with
    | none => exact h
    | some m =>
      by_cases hm : m = ""
      · simpa [onPrivateChatEvent, hm] using h
      · by_cases hdup : (prev roomId).any (fun x => x.id == id) = true
        · simpa [onPrivateChatEvent, hm, hdup] using h
        · rw [onPrivateChatEvent_insert prev roomId m u p t id hm
            (Bool.eq_false_iff.mpr hdup)]
          intro r
          by_cases hr : r = roomId
          · simp only [hr, if_pos rfl]
            exact sortByTimeDesc_sorted _
          · simpa [hr] using h r

theorem foldGlobal_sorted (evs : List (Option MsgValue × String)) :
    ∀ prev, SortedByTimeDesc prev →
      SortedByTimeDesc
        (evs.foldl (fun ms e => onGlobalChatEvent ms e.1 e.2) prev) := by
  induction evs with
  | nil => intro prev h; exact h
  | cons e t ih =>
    intro prev h
    exact ih _ (onGlobalChatEvent_sorted prev e.1 e.2 h)

theorem foldPrivate_sorted (evs : List (String × Option MsgValue × String)) :
    ∀ prev, (∀ r, SortedByTimeDesc (prev r)) →
      ∀ r, SortedByTimeDesc
        ((evs.foldl (fun p e => onPrivateChatEvent p e.1 e.2.1 e.2.2) prev) r) := by
  induction evs with
  | nil => intro prev h; exact h
  | cons e t ih =>
    intro prev h
    exact ih _ (onPrivateChatEvent_sorted prev e.1 e.2.1 e.2.2 h)

/-- C3: starting from the empty initial state, after any sequence of
processed events every room message list (the global list, and each
private room list for any interleaved sequence of per-room events) is
sorted by the time field in descending order, whatever the arrival
order.  Since every reachable state is a fold over some event
sequence, this is the claimed always-sorted invariant. -/
theorem rooms_sorted_desc :
    (∀ evs : List (Option MsgValue × String),
      SortedByTimeDesc
        (evs.foldl (fun ms e => onGlobalChatEvent ms e.1 e.2) [])) ∧
    (∀ (evs : List (String × Option MsgValue × String)) (r : String),
      SortedByTimeDesc
        ((evs.foldl (fun p e => onPrivateChatEvent p e.1 e.2.1 e.2.2)
          (fun _ => [])) r)) :=
  ⟨fun evs => foldGlobal_sorted evs [] List.Pairwise.nil,
   fun evs r => foldPrivate_sorted evs (fun _ => []) (fun _ => List.Pairwise.nil) r⟩

theorem onGlobalChatEvent_tombstone (prev : List Message) (id : String) :
    onGlobalChatEvent prev none id = prev := rfl

theorem onGlobalChatEvent_no_msg (prev : List Message) (v : MsgValue)
    (id : String) (hv : v.msg = none) :
    onGlobalChatEvent prev (some v) id = prev := by
  obtain ⟨mm, u, p, t⟩ := v
  cases hv
  rfl

theorem onPrivateChatEvent_tombstone (prev : String → List Message)
    (roomId id : String) :
    onPrivateChatEvent prev roomId none id = prev := rfl

theorem onPrivateChatEvent_no_msg (prev : String → List Message)
    (roomId : String) (v : MsgValue) (id : String) (hv : v.msg = none) :
    onPrivateChatEvent prev roomId (some v) id = prev := by
  obtain ⟨mm, u, p, t⟩ := v
  cases hv
  rfl

/-- C6: an event whose value is absent (tombstone) or lacks the msg
text field causes no state change in either reconciler; the event is
dropped without any error value, the listener body simply skips. -/
theorem malformed_events_dropped :
    (∀ (prev : List Message) (id : String),
      onGlobalChatEvent prev none id = prev) ∧
    (∀ (prev : List Message) (v : MsgValue) (id : String), v.msg = none →
      onGlobalChatEvent prev (some v) id = prev) ∧
    (∀ (prev : String → List Message) (roomId id : String),
      onPrivateChatEvent prev roomId none id = prev) ∧
    (∀ (prev : String → List Message) (roomId : String) (v : MsgValue)
        (id : String), v.msg = none →
      onPrivateChatEvent prev roomId (some v) id = prev) :=
  ⟨onGlobalChatEvent_tombstone, onGlobalChatEvent_no_msg,
   onPrivateChatEvent_tombstone, onPrivateChatEvent_no_msg⟩

/-- Witness for C6 at a concrete tombstone and a concrete msg-less
value. -/
theorem malformed_events_dropped_witness :
    onGlobalChatEvent [] none "m1" = [] ∧
    onGlobalChatEvent [] (some ⟨none, "alice", "PUBA", 1000⟩) "m1" = [] ∧
    onPrivateChatEvent (fun _ => []) "r" none "m1" = (fun _ => []) ∧
    onPrivateChatEvent (fun _ => []) "r" (some ⟨none, "alice", "PUBA", 1000⟩) "m1"
      = (fun _ => []) :=
  ⟨malformed_events_dropped.1 [] "m1",
   malformed_events_dropped.2.1 [] ⟨none, "alice", "PUBA", 1000⟩ "m1" rfl,
   malformed_events_dropped.2.2.1 (fun _ => []) "r" "m1",
   malformed_events_dropped.2.2.2 (fun _ => []) "r" ⟨none, "alice", "PUBA", 1000⟩
     "m1" rfl⟩

/-- The component state of App.tsx relevant to the session and
subscription lifecycle.  The userIs field embeds the gunUser.is
session object (present or absent); listeners records, in attachment
order, every path on which an .on callback is currently attached (a
call of .on always attaches one more callback; nothing in the source
ever calls .off). -/
structure AppState where
  userIs : Bool
  isAuthenticated : Bool
  currentUser : String
  currentPub : String
  globalMessages : List Message
  privateMessages : String → List Message
  friends : List Friend
  listeners : List String

/-- App.tsx lines 490-514, friendsHandler: on a friend event with
status friend, append the entry (with pub overridden by the stream
key) unless the key is already present, and then — unconditionally,
outside the duplicate check — attach a new message listener on the
private room path of that friend via gun.get(...).get(roomId).map().on.
The attached callback behaves as onPrivateChatEvent for that roomId. -/
def friendsHandler (s : AppState) (data : Option FriendValue) (id : String) :
    AppState :=
  match data with
  | some v =>
    if v.status = "friend" then
      let s1 := { s with
        friends :=
          if s.friends.any (fun f => f.pub == id) then s.friends
          else s.friends ++ [{ pub := id, alias1 := v.alias1,
                               status := v.status, online := v.online }] }
      if s.userIs then
        { s1 with listeners :=
            s1.listeners ++
              ["ma-mesh-private-chats/" ++ getPrivateRoomId s.currentPub id] }
      else s1
    else s
  | none => s

/-- App.tsx lines 554-559, handleLogout: auth.logout() calls
user.leave(), dropping the session object, and the three auth-related
state variables are reset.  No listener is detached. -/
def handleLogout (s : AppState) : AppState :=
  { s with userIs := false, isAuthenticated := false,
           currentUser := "", currentPub := "" }

/-- App.tsx line 520: the cleanup function returned by the main
useEffect is the empty function, so running it changes nothing. -/
def effectCleanup (s : AppState) : AppState := s

/-- A write of a chat message payload to a store path. -/
structure StoreWrite where
  path : String
  msg : String
  user : String
  pub : String
  time : Int
deriving DecidableEq

/-- A write of a friend record to the friends path of the user. -/
structure FriendWrite where
  key : String
  pub : String
  alias1 : String
  status : String
deriving DecidableEq

/-- App.tsx lines 523-532, handleSendMessage: returns early when no
session object exists, otherwise writes the message payload to the
global chat path.  The returned Option is the store write performed;
the handler touches no component state in either case. -/
def handleSendMessage (s : AppState) (now : Int) (text : String) :
    Option StoreWrite :=
  if s.userIs then
    some { path := "ma-mesh-global-chat-v1", msg := text,
           user := s.currentUser, pub := s.currentPub, time := now }
  else none

/-- App.tsx lines 534-544, handleSendPrivateMessage: returns early
when no session object exists or no friend is selected, otherwise
writes the payload to the private room path of the selected friend. -/
def handleSendPrivateMessage (s : AppState) (selectedFriend : Option Friend)
    (now : Int) (text : String) : Option StoreWrite :=
  match s.userIs, selectedFriend with
  | true, some f =>
    some { path := "ma-mesh-private-chats/" ++ getPrivateRoomId s.currentPub f.pub,
           msg := text, user := s.currentUser, pub := s.currentPub, time := now }
  | _, _ => none

/-- part_000 lines 101-115, sendPrivateMessage: returns early when no
session exists, otherwise writes the payload to the private room path
derived from the own public key and the friend public key. -/
def sendPrivateMessage (userIs : Bool) (selfPub userAlias : String) (now : Int)
    (friendPub text : String) : Option StoreWrite :=
  if userIs then
    some { path := "ma-mesh-private-chats/" ++ getPrivateRoomId selfPub friendPub,
           msg := text, user := userAlias, pub := selfPub, time := now }
  else none

/-- part_000 lines 61-66, auth.addFriend: when a session exists, put
the record {pub, alias, status: friend} under the key pub on the
friends path; otherwise do nothing. -/
def addFriend (userIs : Bool) (pub alias1 : String) : Option FriendWrite :=
  if userIs then
    some { key := pub, pub := pub, alias1 := alias1, status := "friend" }
  else none

/-- The JavaScript String.prototype.trim builtin (external to the
repository): strip whitespace from both ends. -/
def jsTrim (s : String) : String :=
  ⟨((s.data.dropWhile Char.isWhitespace).reverse.dropWhile
      Char.isWhitespace).reverse⟩

/-- App.tsx lines 546-552, handleAddFriend: if either trimmed input is
empty, return before any call of auth.addFriend; otherwise forward the
untrimmed inputs to auth.addFriend.  The returned Option is the store
write performed. -/
def handleAddFriend (userIs : Bool) (friendIdInput friendAliasInput : String) :
    Option FriendWrite :=
  if jsTrim friendIdInput = "" || jsTrim friendAliasInput = "" then none
  else addFriend userIs friendIdInput friendAliasInput

/-- A freshly authenticated session state: session present, own public
key self, no messages, no friends, the three listeners attached by the
main effect. -/
def sLoggedIn : AppState :=
  { userIs := true, isAuthenticated := true, currentUser := "me",
    currentPub := "self", globalMessages := [], privateMessages := fun _ => [],
    friends := [], listeners := ["user/alias", "ma-mesh-global-chat-v1", "user/friends"] }

/-- A logged-out state with nothing attached. -/
def sLoggedOut : AppState :=
  { userIs := false, isAuthenticated := false, currentUser := "",
    currentPub := "", globalMessages := [], privateMessages := fun _ => [],
    friends := [], listeners := [] }

/-- The friend event value delivered repeatedly in the C1 scenario. -/
def friendEventK : FriendValue :=
  { pub := "k", alias1 := "al", status := "friend", online := none }

/-- C1 evaluated at the failing input: delivering the same
status-friend event for key k twice to friendsHandler in a logged-in
session yields one friend entry but two attached message listeners on
that friend's room path, because the subscription call sits outside
the duplicate check.  This contradicts the claimed exactly-once
subscription invariant. -/
theorem c1_duplicate_event_attaches_two_room_listeners :
    ((friendsHandler (friendsHandler sLoggedIn (some friendEventK) "k")
        (some friendEventK) "k").listeners.count
      ("ma-mesh-private-chats/" ++ getPrivateRoomId "self" "k") = 2) ∧
    ((friendsHandler (friendsHandler sLoggedIn (some friendEventK) "k")
        (some friendEventK) "k").friends.length = 1) := by
  constructor <;> rfl

/-- C8 evaluated on the code: handleLogout clears the session fields
but leaves every attached listener in place, and the useEffect cleanup
is the identity, so ending a session cancels no subscription at all —
contradicting the claimed cancellation of the global, friend-stream
and per-friend listeners. -/
theorem c8_logout_cancels_no_listener (s : AppState) :
    (handleLogout s).listeners = s.listeners ∧
    (handleLogout s).userIs = false ∧
    (handleLogout s).isAuthenticated = false ∧
    effectCleanup s = s :=
  ⟨rfl, rfl, rfl, rfl⟩

/-- C7: calling the addFriend flow with an empty publicKey or an empty
alias is rejected by the local validation in handleAddFriend before
auth.addFriend — and hence before any store write — whatever the
session state. -/
theorem addFriend_empty_rejected (userIs : Bool) (pubIn aliasIn : String)
    (h : pubIn = "" ∨ aliasIn = "") :
    handleAddFriend userIs pubIn aliasIn = none := by
  have hempty : jsTrim "" = "" := rfl
  rcases h with h | h <;> subst h <;> simp [handleAddFriend, hempty]

/-- Witness for C7: the spec scenario addFriend with empty publicKey
and alias alice performs no write. -/
theorem addFriend_empty_rejected_witness :
    handleAddFriend true "" "alice" = none :=
  addFriend_empty_rejected true "" "alice" (Or.inl rfl)

/-- C9: when no authenticated session exists, every send operation —
the global send handler, the private send handler and the service
sendPrivateMessage — performs no store write; none of them touches
component state in any case (their only effect is the returned
write). -/
theorem send_without_session_noop (s : AppState) (hs : s.userIs = false) :
    (∀ (now : Int) (text : String), handleSendMessage s now text = none) ∧
    (∀ (sf : Option Friend) (now : Int) (text : String),
      handleSendPrivateMessage s sf now text = none) ∧
    (∀ (selfPub userAlias : String) (now : Int) (friendPub text : String),
      sendPrivateMessage false selfPub userAlias now friendPub text = none) := by
  refine ⟨fun now text => ?_, fun sf now text => ?_, fun a b c d e => rfl⟩
  · simp [handleSendMessage, hs]
  · cases sf <;> simp [handleSendPrivateMessage, hs]

/-- Witness for C9 at the concrete logged-out state. -/
theorem send_without_session_noop_witness :
    handleSendMessage sLoggedOut 0 "hi" = none ∧
    handleSendPrivateMessage sLoggedOut none 0 "hi" = none ∧
    sendPrivateMessage false "self" "me" 0 "k" "hi" = none :=
  ⟨(send_without_session_noop sLoggedOut rfl).1 0 "hi",
   (send_without_session_noop sLoggedOut rfl).2.1 none 0 "hi",
   (send_without_session_noop sLoggedOut rfl).2.2 "self" "me" 0 "k" "hi"⟩

/-- C10: when a status-friend event for a not-yet-registered key is
processed, the registry entry appended stores the stream key as its
pub field; the pub field inside the event value is discarded by the
spread override, whatever it was. -/
theorem friend_entry_pub_is_event_key (s : AppState) (v : FriendValue)
    (id : String) (hstat : v.status = "friend")
    (hnew : s.friends.any (fun f => f.pub == id) = false) :
    (friendsHandler s (some v) id).friends
      = s.friends ++ [{ pub := id, alias1 := v.alias1,
                        status := v.status, online := v.online }] := by
  by_cases hu : s.userIs = true <;> simp [friendsHandler, hstat, hnew, hu]

/-- Witness for C10: the event value carries pub other-pub, yet the
created entry records the key key1. -/
theorem friend_entry_pub_is_event_key_witness :
    (friendsHandler sLoggedIn
        (some { pub := "other-pub", alias1 := "al", status := "friend",
                online := none }) "key1").friends
      = sLoggedIn.friends ++
          [{ pub := "key1", alias1 := "al", status := "friend", online := none }] :=
  friend_entry_pub_is_event_key sLoggedIn
    { pub := "other-pub", alias1 := "al", status := "friend", online := none }
    "key1" rfl rfl
